import Mathlib

/-!
Verification of the SmartGallery layout library (`src/smart-gallery.js`).

The library is a plain JavaScript class.  All geometric computation is done
with JS numbers; we embed it over `ℚ` (the concrete inputs in the claims are
all exactly representable, and the algorithms use only field operations,
`Math.abs`, `Math.min`/`max`, `Math.floor`/`ceil` and comparisons).

Items are represented by their aspect values (`item.aspectRatio` is the
only item field the layout engines read).  The two `while` loops of the
justified engine are modelled with an explicit fuel argument; at every call
site the fuel is the list length, which is sufficient because each
iteration of the outer loop advances the cursor by at least one and the
inner loop advances `j` by one.
-/

/- The Batteries rational operations are `@[irreducible]`, which blocks
`decide` on concrete `ℚ` computations; every value here is a small exact
rational, so we restore default reducibility for them. -/
set_option allowUnsafeReducibility true in
attribute [semireducible] Rat.add Rat.mul Rat.sub Rat.inv Rat.neg Rat.ofScientific

/-- Output record of the layout engines: the JS object
`{left, top, width, height}` pushed into `boxes`. -/
structure Box where
  left : ℚ
  top : ℚ
  width : ℚ
  height : ℚ
deriving DecidableEq, Repr

/-- `{ boxes, containerHeight }` as returned by each `_compute*Layout`. -/
structure LayoutResult where
  boxes : List Box
  containerHeight : ℚ
deriving DecidableEq, Repr

/-- The `columns` option: the string `'auto'` or a number of columns.
(The claims only exercise natural-number column counts.) -/
inductive Columns where
  | auto : Columns
  | fixed : ℕ → Columns
deriving DecidableEq, Repr

/-- The merged options object (constructor lines 12–36 of the source).
DOM-only fields (`className`, `itemClassName`, `placeholderColor`,
`renderItem`, `onItemClick`) carry no layout content and are omitted. -/
structure Options where
  layout : String
  gap : ℚ
  targetRowHeight : ℚ
  lastRowBehavior : String
  columnWidth : ℚ
  columns : Columns
  virtualize : Bool
  buffer : ℚ
deriving DecidableEq, Repr

/-- The defaults of `Object.assign({...}, options)` in the constructor. -/
def defaultOptions : Options where
  layout := "justified"
  gap := 10
  targetRowHeight := 300
  lastRowBehavior := "left"
  columnWidth := 300
  columns := Columns.auto
  virtualize := true
  buffer := 500

/-- Caller-supplied options: any subset of the recognized fields. -/
structure OptionsPartial where
  layout : Option String := none
  gap : Option ℚ := none
  targetRowHeight : Option ℚ := none
  lastRowBehavior : Option String := none
  columnWidth : Option ℚ := none
  columns : Option Columns := none
  virtualize : Option Bool := none
  buffer : Option ℚ := none
deriving DecidableEq, Repr

/-- `Object.assign(defaults, options)`: a supplied field overrides the
default; nothing is validated or clamped. -/
def mergeOptions (given : OptionsPartial) : Options where
  layout := given.layout.getD defaultOptions.layout
  gap := given.gap.getD defaultOptions.gap
  targetRowHeight := given.targetRowHeight.getD defaultOptions.targetRowHeight
  lastRowBehavior := given.lastRowBehavior.getD defaultOptions.lastRowBehavior
  columnWidth := given.columnWidth.getD defaultOptions.columnWidth
  columns := given.columns.getD defaultOptions.columns
  virtualize := given.virtualize.getD defaultOptions.virtualize
  buffer := given.buffer.getD defaultOptions.buffer

/-- The constructor (source lines 6–47): it throws only when the container
is not found, then merges the options; no configuration value is checked. -/
def constructorModel (containerFound : Bool) (given : OptionsPartial) :
    Except String Options :=
  if containerFound = false then
    Except.error (String.append "SmartGallery: " ("Container not found."))
  else
    Except.ok (mergeOptions given)

/-- JS falsiness of an optional numeric field: `undefined` and `0` are
falsy, every other number is truthy. -/
def jsFalsy (x : Option ℚ) : Bool :=
  match x with
  | none => true
  | some v => v == 0

/-- `addItems` normalization of one item (source lines 76–90):
`let aspectRatio = item.aspectRatio; if (!aspectRatio && item.width &&
item.height) aspectRatio = item.width / item.height; if (!aspectRatio)
aspectRatio = 1;`.  `none` models an absent (`undefined`) field. -/
def normalizeAspect (aspect w h : Option ℚ) : ℚ :=
  let a1 : Option ℚ :=
    if jsFalsy aspect = true ∧ jsFalsy w = false ∧ jsFalsy h = false then
      some (w.getD 0 / h.getD 0)
    else aspect
  if jsFalsy a1 = true then 1 else a1.getD 1

/-- A caller-supplied item as far as normalization is concerned. -/
structure RawItem where
  aspect : Option ℚ := none
  width : Option ℚ := none
  height : Option ℚ := none
deriving DecidableEq, Repr

/-- `addItems` over a list: each stored item keeps a normalized aspect. -/
def addItemsNorm (items : List RawItem) : List ℚ :=
  items.map (fun it => normalizeAspect it.aspect it.width it.height)

/-- Column-count and column-width resolution shared by the masonry and grid
engines (source lines 406–418 and 448–459).  For `'auto'`:
`colCount = max(1, floor((W+gap)/(columnWidth+gap)))`; in both cases
`colW = (W − (colCount−1)·gap)/colCount`. -/
def resolveColumns (W : ℚ) (opts : Options) : ℕ × ℚ :=
  match opts.columns with
  | Columns.auto =>
      let colCount : ℕ := max 1 (Int.toNat ⌊(W + opts.gap) / (opts.columnWidth + opts.gap)⌋)
      (colCount, (W - ((colCount : ℚ) - 1) * opts.gap) / (colCount : ℚ))
  | Columns.fixed n =>
      (n, (W - ((n : ℚ) - 1) * opts.gap) / (n : ℚ))

/-- One step of the masonry loop (source lines 423–438): place the item in
the first column of minimal height. -/
def masonryStep (colW gap : ℚ) (acc : List ℚ × List Box) (a : ℚ) :
    List ℚ × List Box :=
  let colHeights := acc.1
  let minH : ℚ := (colHeights.min?).getD 0
  let colIndex : ℕ := colHeights.indexOf minH
  let h : ℚ := colW / a
  let box : Box := { left := (colIndex : ℚ) * (colW + gap), top := minH, width := colW, height := h }
  (colHeights.set colIndex (minH + h + gap), acc.2 ++ [box])

/-- `_computeMasonryLayout` (source lines 403–441).  `Math.max(...colHeights)`
is modelled by `List.max?` (the column list is nonempty whenever
`colCount ≥ 1`, which all theorems below assume). -/
def computeMasonryLayout (aspects : List ℚ) (W : ℚ) (opts : Options) : LayoutResult :=
  let resolved := resolveColumns W opts
  let colW := resolved.2
  let start : List ℚ × List Box := (List.replicate resolved.1 0, [])
  let final := aspects.foldl (masonryStep colW opts.gap) start
  { boxes := final.2, containerHeight := (final.1.max?).getD 0 }

/-- `_computeGridLayout` (source lines 446–479): square cells
(`itemH = colW`), item `i` at column `i % colCount`, row `⌊i/colCount⌋`;
`containerHeight = rows·(itemH+gap) − gap` with `rows = ceil(n/colCount)`. -/
def computeGridLayout (aspects : List ℚ) (W : ℚ) (opts : Options) : LayoutResult :=
  let resolved := resolveColumns W opts
  let colCount := resolved.1
  let colW := resolved.2
  let itemH := colW
  let boxes : List Box := (List.range aspects.length).map (fun i =>
    { left := ((i % colCount : ℕ) : ℚ) * (colW + opts.gap),
      top := ((i / colCount : ℕ) : ℚ) * (itemH + opts.gap),
      width := colW, height := itemH })
  let rows : ℕ := (aspects.length + colCount - 1) / colCount
  { boxes := boxes, containerHeight := (rows : ℚ) * (itemH + opts.gap) - opts.gap }

/-- Visible-index computation of `_updateVisibleItems` (source lines
141–153): band `[max(0, scroll − containerTop − buffer),
scroll − containerTop + viewportHeight + buffer]`; a box is kept iff
`box.top + box.height > startY && box.top < endY`.  The stored geometry's
`itemIndex` equals the position of the box in the list (source line 114). -/
def visibleIndices (geometry : List Box) (scrollTop viewportHeight containerTop buffer : ℚ) :
    List ℕ :=
  let startY := max 0 (scrollTop - containerTop - buffer)
  let endY := scrollTop - containerTop + viewportHeight + buffer
  geometry.enum.filterMap (fun p =>
    if p.2.top + p.2.height > startY ∧ p.2.top < endY then some p.1 else none)

/-- The two diff loops of `_updateVisibleItems` (source lines 155–169),
in set terms: first every visible index not yet rendered is mounted and
added; then every rendered index not visible is unmounted and removed.
Returns `(mountList, unmountList, new renderedIndices)`. -/
def diffStep (prev V : Finset ℕ) : Finset ℕ × Finset ℕ × Finset ℕ :=
  let mountList := V \ prev
  let afterMount := prev ∪ mountList
  let unmountList := afterMount \ V
  (mountList, unmountList, afterMount \ unmountList)

/-! ### Justified engine (`_computeJustifiedLayout`, source lines 251–398) -/

/-- The inner candidate-scan loop of the justified engine (source lines
300–325): starting at `j` with running aspect sum `currentAspect`, extend
the candidate row, stop once `rowHeight < targetRowHeight·0.5`, and track
the break index of minimal `|rowHeight − targetRowHeight|`.  `none` plays
the role of `bestBreakIndex = -1` / `minScore = Infinity`; the fuel is the
number of remaining inner iterations allowed (callers pass the list
length, enough since `j` increases each step). -/
def scanBest (aspects : List ℚ) (W gap T : ℚ) (i : ℕ) :
    ℕ → ℕ → ℚ → Option (ℕ × ℚ) → Option (ℕ × ℚ)
  | 0, _, _, best => best
  | fuel + 1, j, currentAspect, best =>
    if hj : j < aspects.length then
      let currentAspect := currentAspect + aspects.get ⟨j, hj⟩
      let count : ℕ := j - i + 1
      let totalGap : ℚ := ((count : ℚ) - 1) * gap
      let availableWidth := W - totalGap
      let rowHeight := availableWidth / currentAspect
      if rowHeight < T * (1 / 2) then best
      else
        let score := |rowHeight - T|
        let best' : Option (ℕ × ℚ) :=
          match best with
          | none => some (j, score)
          | some (bj, bs) => if score < bs then some (j, score) else some (bj, bs)
        scanBest aspects W gap T i fuel (j + 1) currentAspect best'
    else best

/-- Box emission for one finalized row (source lines 370–381): one box per
item, common height, `left` accumulating from the row's `offsetX`. -/
def buildRow (rowAspects : List ℚ) (height gap top : ℚ) (left : ℚ) : List Box :=
  match rowAspects with
  | [] => []
  | a :: rest =>
      { left := left, top := top, width := height * a, height := height } ::
        buildRow rest height gap top (left + height * a + gap)

/-- The row-height formula evaluated for the candidate row `[i, j]`
(source lines 302–306): `(W − (count−1)·gap) / sumAspect`. -/
def candidateRowHeight (aspects : List ℚ) (W gap : ℚ) (i j : ℕ) : ℚ :=
  let s := ((aspects.drop i).take (j - i + 1)).sum
  (W - ((j - i : ℕ) : ℚ) * gap) / s

/-- The outer `while (i < items.length)` loop of the justified engine
(source lines 292–395).  Arguments after the fuel: cursor `i` and running
vertical offset `top`; result: the emitted boxes and the final `top`
(which becomes `containerHeight`).  The structure follows the source: scan
for the best break; if found, recompute the row height, apply the
last-row behavior (`hide` breaks out of the loop; `left|center|right`
reset the height to the target and offset the row), emit the row's boxes
and continue after the break index; if no break was found, force a
single-item row at the target height. -/
def justifiedGo (aspects : List ℚ) (W gap T : ℚ) (behavior : String) :
    ℕ → ℕ → ℚ → List Box × ℚ
  | 0, _, top => ([], top)
  | fuel + 1, i, top =>
    if hi : i < aspects.length then
      match scanBest aspects W gap T i aspects.length i 0 none with
      | some (bestBreak, _) =>
          let count : ℕ := bestBreak - i + 1
          let rowAspects := (aspects.drop i).take count
          let finalAspect := rowAspects.sum
          let totalGap : ℚ := ((count : ℚ) - 1) * gap
          let rawHeight := (W - totalGap) / finalAspect
          let isLast : Bool := bestBreak == aspects.length - 1
          if isLast = true ∧ behavior = "hide" then ([], top)
          else
            let finalRowHeight :=
              if isLast = true ∧ (behavior = "left" ∨ behavior = "center" ∨ behavior = "right")
              then T else rawHeight
            let offsetX :=
              if isLast = true then
                if behavior = "center" then
                  max 0 ((W - (finalAspect * T + totalGap)) / 2)
                else if behavior = "right" then
                  max 0 (W - (finalAspect * T + totalGap))
                else 0
              else 0
            let rowBoxes := buildRow rowAspects finalRowHeight gap top offsetX
            let rest := justifiedGo aspects W gap T behavior fuel (bestBreak + 1)
              (top + finalRowHeight + gap)
            (rowBoxes ++ rest.1, rest.2)
      | none =>
          let a := aspects.get ⟨i, hi⟩
          let box : Box := { left := 0, top := top, width := T * a, height := T }
          let rest := justifiedGo aspects W gap T behavior fuel (i + 1) (top + T + gap)
          (box :: rest.1, rest.2)
    else ([], top)

/-- `_computeJustifiedLayout` (source lines 251–398). -/
def computeJustifiedLayout (aspects : List ℚ) (W : ℚ) (opts : Options) : LayoutResult :=
  let run := justifiedGo aspects W opts.gap opts.targetRowHeight opts.lastRowBehavior
    aspects.length 0 0
  { boxes := run.1, containerHeight := run.2 }

/-- Validity of the `columns` option as used in the theorems below: an
explicit column count must be at least 1 (the `'auto'` resolution already
forces at least one column via `Math.max(1, …)`). -/
def columnsOk (c : Columns) : Bool :=
  match c with
  | Columns.auto => true
  | Columns.fixed n => decide (1 ≤ n)

/-- The methods defined on the `SmartGallery` class (source lines 5–489). -/
def smartGalleryMethods : List String :=
  ["constructor", "_init", "addItems", "render", "_updateVisibleItems",
   "_mountItem", "_unmountItem", "_handleScroll", "_throttle",
   "_computeJustifiedLayout", "_computeMasonryLayout", "_computeGridLayout",
   "destroy"]

/-- Error message of a JS call to an undefined method. -/
def renderItemsMissingMsg : String :=
  String.append "TypeError: this._renderItems " ("is not a function")

/-- `_updateVisibleItems` (source lines 125–170).  When
`virtualize = false` the code runs `this._renderItems(this.geometry)`
(line 128); in JS this throws a `TypeError` unless a method of that name
exists on the class.  Otherwise the band/diff path runs. -/
def updateVisibleItemsModel (virtualize : Bool) (geometry : List Box)
    (scrollTop viewportHeight containerTop buffer : ℚ) (rendered : Finset ℕ) :
    Except String (Finset ℕ × Finset ℕ × Finset ℕ) :=
  if virtualize = false then
    if "_renderItems" ∈ smartGalleryMethods then
      Except.ok (Finset.range geometry.length, ∅, rendered ∪ Finset.range geometry.length)
    else
      Except.error (renderItemsMissingMsg)
  else
    let V : Finset ℕ := (visibleIndices geometry scrollTop viewportHeight containerTop buffer).toFinset
    Except.ok (diffStep rendered V)
/-- Decidable equality for `Except`, used to evaluate the error-modelling
definitions on concrete inputs. -/
instance exceptDecEq {ε α : Type} [DecidableEq ε] [DecidableEq α] :
    DecidableEq (Except ε α) := fun x y =>
  match x, y with
  | Except.error a, Except.error b =>
      if h : a = b then isTrue (congrArg Except.error h)
      else isFalse (fun hc => h (Except.error.inj hc))
  | Except.error _, Except.ok _ => isFalse (fun hc => Except.noConfusion hc)
  | Except.ok _, Except.error _ => isFalse (fun hc => Except.noConfusion hc)
  | Except.ok a, Except.ok b =>
      if h : a = b then isTrue (congrArg Except.ok h)
      else isFalse (fun hc => h (Except.ok.inj hc))

/-! ### Small helper lemmas -/

theorem elim_max_replicate (d : ℕ) :
    (List.replicate d (0 : ℚ)).max?.elim 0 (max 0) = 0 := by
  induction d with
  | zero => rfl
  | succ d ih =>
      rw [List.replicate_succ, List.max?_cons, Option.elim_some, ih]
      exact max_self 0

theorem replicate_zero_max (c : ℕ) (hc : 1 ≤ c) :
    (List.replicate c (0 : ℚ)).max? = some 0 := by
  cases c with
  | zero => omega
  | succ d =>
      rw [List.replicate_succ, List.max?_cons, elim_max_replicate]

theorem resolveColumns_pos (W : ℚ) (opts : Options) (h : columnsOk opts.columns = true) :
    1 ≤ (resolveColumns W opts).1 := by
  cases hc : opts.columns with
  | auto => simp [resolveColumns, hc]
  | fixed n =>
      rw [hc] at h
      simp only [columnsOk, decide_eq_true_eq] at h
      simp only [resolveColumns, hc]
      exact h

/-! ### Claim theorems (first group) -/

/-- C1: on aspect values `[1.5, 1.0, 2.0]` with `containerWidth = 900`,
`gap = 10`, `targetRowHeight = 300`, `lastRowBehavior = 'left'`, the
candidate rows starting at item 0 have heights `600`, `356` and
`1760/9 ≈ 195.6`; the engine picks the break minimizing
`|rowHeight − 300|`, i.e. the two-item row of height `(900−10)/2.5 = 356`,
and the final single-item row is reset to height `300` by the last-row
behavior. -/
theorem justified_scenarioA :
    candidateRowHeight [3/2, 1, 2] 900 10 0 0 = 600 ∧
    candidateRowHeight [3/2, 1, 2] 900 10 0 1 = (900 - 10) / (5/2) ∧
    candidateRowHeight [3/2, 1, 2] 900 10 0 1 = 356 ∧
    candidateRowHeight [3/2, 1, 2] 900 10 0 2 = 1760 / 9 ∧
    |(1760 : ℚ) / 9 - 1956 / 10| < 1 / 10 ∧
    |(356 : ℚ) - 300| < |(600 : ℚ) - 300| ∧
    |(356 : ℚ) - 300| < |(1760 : ℚ) / 9 - 300| ∧
    computeJustifiedLayout [3/2, 1, 2] 900
        { defaultOptions with gap := 10, targetRowHeight := 300, lastRowBehavior := "left" } =
      { boxes := [⟨0, 0, 534, 356⟩, ⟨544, 0, 356, 356⟩, ⟨0, 366, 600, 300⟩],
        containerHeight := 676 } := by
  decide

/-- C3 counterexample: in the masonry scenario of the claim (four unit
aspects, two explicit columns, width 620, gap 20) the engine's
`containerHeight` is `Math.max(...colHeights) = 640` (column heights
retain the trailing gap), not the claimed `620`. -/
theorem masonry_scenarioB_height_cx :
    (computeMasonryLayout [1, 1, 1, 1] 620
        { defaultOptions with gap := 20, columns := Columns.fixed 2 }).containerHeight = 640 ∧
    ¬ (computeMasonryLayout [1, 1, 1, 1] 620
        { defaultOptions with gap := 20, columns := Columns.fixed 2 }).containerHeight = 620 := by
  decide

/-- C3 amended: same scenario; the derived column width is 300, items 0
and 1 open columns 0 and 1 at `top = 0`, item 2 goes to column 0 at
`top = 320` (tie broken by lowest index), item 3 to column 1 at
`top = 320`, and `containerHeight = max(colHeights) = 640` (the column
heights include the trailing gap: `320 + 300 + 20`). -/
theorem masonry_scenarioB :
    (resolveColumns 620 { defaultOptions with gap := 20, columns := Columns.fixed 2 }).2 = 300 ∧
    computeMasonryLayout [1, 1, 1, 1] 620
        { defaultOptions with gap := 20, columns := Columns.fixed 2 } =
      { boxes := [⟨0, 0, 300, 300⟩, ⟨320, 0, 300, 300⟩,
                  ⟨0, 320, 300, 300⟩, ⟨320, 320, 300, 300⟩],
        containerHeight := 640 } := by
  decide

/-- C4: with `virtualize = false`, `_updateVisibleItems` runs
`this._renderItems(this.geometry)` (source line 128), but no method named
`_renderItems` is defined anywhere on the class, so the call throws a
`TypeError` instead of rendering all items. -/
theorem updateVisible_no_virtualize_throws :
    updateVisibleItemsModel false [⟨0, 0, 100, 100⟩] 0 500 0 500 ∅ =
      Except.error (renderItemsMissingMsg) ∧
    "_renderItems" ∉ smartGalleryMethods := by
  decide

/-- C5 counterexample: a configuration with `targetRowHeight = -1` is
accepted without any error at construction time (the constructor merges
options and never validates them), and the justified engine then computes
a box of height `-1` from it. -/
theorem constructor_accepts_bad_config :
    constructorModel true { targetRowHeight := some (-1) } =
      Except.ok (mergeOptions { targetRowHeight := some (-1) }) ∧
    (mergeOptions { targetRowHeight := some (-1) }).targetRowHeight = -1 ∧
    (computeJustifiedLayout [1] 900
        (mergeOptions { targetRowHeight := some (-1) })).boxes = [⟨0, 0, -1, -1⟩] := by
  decide

/-- C5 amended: the constructor performs no configuration validation at
all — for every supplied options object it succeeds (it only errors when
the container is missing), and engines compute geometry directly from the
merged values, which yields negative box heights for a non-positive
`targetRowHeight` instead of a synchronous configuration error. -/
theorem constructor_no_validation :
    (∀ given : OptionsPartial, constructorModel true given = Except.ok (mergeOptions given)) ∧
    (computeJustifiedLayout [1] 900
        (mergeOptions { targetRowHeight := some (-1) })).containerHeight = 9 ∧
    (computeJustifiedLayout [1] 900
        (mergeOptions { targetRowHeight := some (-1) })).boxes = [⟨0, 0, -1, -1⟩] ∧
    (-1 : ℚ) < 0 := by
  exact ⟨fun given => rfl, by decide, by decide, by decide⟩

/-- C6 counterexample: on an empty item list the grid engine returns
`containerHeight = rows·(itemH+gap) − gap = −gap` (here `-10`), not `0`. -/
theorem grid_empty_negative_height_cx :
    (computeGridLayout ([] : List ℚ) 620
        { defaultOptions with gap := 10, columns := Columns.fixed 2 }).containerHeight = -10 ∧
    ¬ (computeGridLayout ([] : List ℚ) 620
        { defaultOptions with gap := 10, columns := Columns.fixed 2 }).containerHeight = 0 := by
  decide

/-- C6 amended: an empty item list is not an error: all three engines
return an empty box list; justified and masonry return
`containerHeight = 0`, but grid returns `containerHeight = −gap`
(negative whenever `gap > 0`), because it subtracts the trailing gap from
`rows·(itemH+gap)` with `rows = 0`. -/
theorem empty_input_layouts (W : ℚ) (opts : Options)
    (hcols : columnsOk opts.columns = true) :
    (computeJustifiedLayout [] W opts).boxes = [] ∧
    (computeJustifiedLayout [] W opts).containerHeight = 0 ∧
    (computeMasonryLayout [] W opts).boxes = [] ∧
    (computeMasonryLayout [] W opts).containerHeight = 0 ∧
    (computeGridLayout [] W opts).boxes = [] ∧
    (computeGridLayout [] W opts).containerHeight = -opts.gap := by
  refine ⟨rfl, rfl, rfl, ?_, rfl, ?_⟩
  · have h1 := resolveColumns_pos W opts hcols
    simp only [computeMasonryLayout, List.foldl_nil]
    rw [replicate_zero_max _ h1]
    rfl
  · have h1 := resolveColumns_pos W opts hcols
    simp only [computeGridLayout, List.length_nil]
    have hrows : (0 + (resolveColumns W opts).1 - 1) / (resolveColumns W opts).1 = 0 :=
      Nat.div_eq_of_lt (by omega)
    rw [hrows]
    push_cast
    ring

/-- C7 counterexample: a supplied aspect value of `-2` is *kept* by the
`addItems` normalization (JS falsiness only replaces `0`/missing values),
so the stored aspect is `-2`, not the claimed positive default `1`. -/
theorem normalizeAspect_negative_kept_cx :
    normalizeAspect (some (-2)) none none = -2 ∧
    ¬ 0 < normalizeAspect (some (-2)) none none ∧
    addItemsNorm [{ aspect := some (-2) }] = [-2] := by
  decide

/-- C7 amended: `addItems` stores, for each item, the supplied aspect
value when it is nonzero (including negative values, which are kept
as-is); otherwise `width/height` when both are supplied and nonzero;
otherwise the default `1`.  A supplied aspect of `0` behaves exactly like
a missing one.  Normalization is a total function (never throws). -/
theorem addItems_normalization (a w h : ℚ) (ha : a ≠ 0) (hw : w ≠ 0) (hh : h ≠ 0) :
    (∀ ow oh, normalizeAspect (some a) ow oh = a) ∧
    normalizeAspect none (some w) (some h) = w / h ∧
    normalizeAspect none none none = 1 ∧
    (∀ ow oh, normalizeAspect (some 0) ow oh = normalizeAspect none ow oh) := by
  refine ⟨?_, ?_, rfl, ?_⟩
  · intro ow oh
    simp [normalizeAspect, jsFalsy, ha]
  · have hdiv : w / h ≠ 0 := div_ne_zero hw hh
    simp [normalizeAspect, jsFalsy, hw, hh, hdiv]
  · intro ow oh
    have h0 : jsFalsy (some 0) = true := rfl
    have hn : jsFalsy none = true := rfl
    by_cases hP : jsFalsy ow = false ∧ jsFalsy oh = false
    · simp [normalizeAspect, hP, h0, hn]
    · simp [normalizeAspect, hP, h0, hn]

/-- C8: the visible band is
`[max(0, scroll − containerTop − buffer), scroll − containerTop + viewportHeight + buffer]`
and an index is returned iff its box satisfies
`box.top + box.height > startY` and `box.top < endY` (strict); the box at
`top = 1000, height = 200` is visible for `scroll = 900` (band
`[850, 1450]`) and not for `scroll = 1300` (band `[1250, 1850]`). -/
theorem visibility_spec (geometry : List Box) (s vh ct buf : ℚ) (_hbuf : 0 ≤ buf) :
    (∀ k, k ∈ visibleIndices geometry s vh ct buf ↔
      ∃ hk : k < geometry.length,
        (geometry.get ⟨k, hk⟩).top + (geometry.get ⟨k, hk⟩).height > max 0 (s - ct - buf) ∧
        (geometry.get ⟨k, hk⟩).top < s - ct + vh + buf) ∧
    visibleIndices [⟨0, 1000, 100, 200⟩] 900 500 0 50 = [0] ∧
    visibleIndices [⟨0, 1000, 100, 200⟩] 1300 500 0 50 = [] := by
  refine ⟨?_, by decide, by decide⟩
  intro k
  simp only [visibleIndices, List.mem_filterMap, Option.ite_none_right_eq_some,
    Option.some.injEq, Prod.exists]
  constructor
  · rintro ⟨j, box, hmem, hcond, rfl⟩
    rw [List.mem_enum_iff_getElem?] at hmem
    simp only at hmem
    have hk : j < geometry.length := (List.getElem?_eq_some.mp hmem).1
    have hbox : geometry.get ⟨j, hk⟩ = box := by
      have hg := List.getElem?_eq_getElem hk
      rw [hg] at hmem
      simp only [Option.some.injEq] at hmem
      exact hmem
    exact ⟨hk, by rw [hbox]; exact hcond.1, by rw [hbox]; exact hcond.2⟩
  · rintro ⟨hk, h1, h2⟩
    refine ⟨k, geometry.get ⟨k, hk⟩, ?_, ⟨h1, h2⟩, rfl⟩
    rw [List.mem_enum_iff_getElem?]
    simp only [List.getElem?_eq_getElem hk, List.get_eq_getElem]

/-- C9: the render-set diff mounts exactly the newly visible indices,
unmounts exactly the indices that are no longer visible, leaves the
rendered set equal to the visible set, and mount and unmount lists are
disjoint. -/
theorem diff_correct (prev V : Finset ℕ) :
    (diffStep prev V).1 = V \ prev ∧
    (diffStep prev V).2.1 = prev \ V ∧
    (diffStep prev V).2.2 = V ∧
    (diffStep prev V).1 ∩ (diffStep prev V).2.1 = ∅ := by
  refine ⟨rfl, ?_, ?_, ?_⟩
  · simp only [diffStep]
    ext x
    simp only [Finset.mem_sdiff, Finset.mem_union]
    tauto
  · simp only [diffStep]
    ext x
    simp only [Finset.mem_sdiff, Finset.mem_union]
    tauto
  · simp only [diffStep]
    ext x
    simp only [Finset.mem_inter, Finset.mem_sdiff, Finset.mem_union, Finset.not_mem_empty]
    tauto

/-! ### Lemmas about the justified engine's loops -/

theorem justifiedGo_at_end (aspects : List ℚ) (W gap T : ℚ) (behavior : String)
    (fuel i : ℕ) (top : ℚ) (h : aspects.length ≤ i) :
    justifiedGo aspects W gap T behavior fuel i top = ([], top) := by
  cases fuel with
  | zero => rfl
  | succ f =>
      rw [justifiedGo, dif_neg (by omega)]

theorem buildRow_length (rowAspects : List ℚ) (h gap top : ℚ) :
    ∀ left, (buildRow rowAspects h gap top left).length = rowAspects.length := by
  induction rowAspects with
  | nil => intro left; rfl
  | cons a rest ih =>
      intro left
      rw [buildRow]
      simp only [List.length_cons, ih]

theorem buildRow_forall₂ (rowAspects : List ℚ) (h gap top : ℚ) :
    ∀ left, List.Forall₂ (fun (b : Box) (a : ℚ) => b.width = b.height * a)
      (buildRow rowAspects h gap top left) rowAspects := by
  induction rowAspects with
  | nil => intro left; exact List.Forall₂.nil
  | cons a rest ih =>
      intro left
      rw [buildRow]
      exact List.Forall₂.cons rfl (ih _)

theorem buildRow_heights (rowAspects : List ℚ) (h gap top : ℚ) :
    ∀ left, ∀ box ∈ buildRow rowAspects h gap top left, box.height = h := by
  induction rowAspects with
  | nil => intro left box hbox; cases hbox
  | cons a rest ih =>
      intro left box hbox
      rw [buildRow] at hbox
      rcases List.mem_cons.mp hbox with hb | hb
      · rw [hb]
      · exact ih _ box hb

theorem drop_take_drop (aspects : List ℚ) (i b : ℕ) (hib : i ≤ b) :
    aspects.drop i = (aspects.drop i).take (b - i + 1) ++ aspects.drop (b + 1) := by
  have h1 : (aspects.drop i).drop (b - i + 1) = aspects.drop (b + 1) := by
    rw [List.drop_drop]
    congr 1
    omega
  rw [← h1, List.take_append_drop]

theorem scanBest_bounds (aspects : List ℚ) (W gap T : ℚ) (i : ℕ) :
    ∀ (fuel j : ℕ) (c : ℚ) (best : Option (ℕ × ℚ)), i ≤ j →
      (∀ b s, best = some (b, s) → i ≤ b ∧ b < aspects.length) →
      ∀ b s, scanBest aspects W gap T i fuel j c best = some (b, s) →
        i ≤ b ∧ b < aspects.length := by
  intro fuel
  induction fuel with
  | zero => intro j c best hij hbest b s hres; exact hbest b s hres
  | succ f ih =>
      intro j c best hij hbest b s hres
      rw [scanBest] at hres
      by_cases hj : j < aspects.length
      · rw [dif_pos hj] at hres
        simp only at hres
        split at hres
        · exact hbest b s hres
        · refine ih (j + 1) _ _ (by omega) ?_ b s hres
          intro b' s' hbs
          rcases best with _ | ⟨bj, bs⟩
          · simp only [Option.some.injEq, Prod.mk.injEq] at hbs
            exact ⟨by omega, by omega⟩
          · simp only at hbs
            split at hbs
            · simp only [Option.some.injEq, Prod.mk.injEq] at hbs
              exact ⟨by omega, by omega⟩
            · simp only [Option.some.injEq, Prod.mk.injEq] at hbs
              exact hbs.1 ▸ hbest bj bs rfl
      · rw [dif_neg hj] at hres
        exact hbest b s hres

theorem scanBest_isSome (aspects : List ℚ) (W gap T : ℚ) (i : ℕ) :
    ∀ (fuel j : ℕ) (c : ℚ) (best : Option (ℕ × ℚ)), best.isSome = true →
      (scanBest aspects W gap T i fuel j c best).isSome = true := by
  intro fuel
  induction fuel with
  | zero => intro j c best h; exact h
  | succ f ih =>
      intro j c best h
      rw [scanBest]
      by_cases hj : j < aspects.length
      · rw [dif_pos hj]
        simp only
        split
        · exact h
        · apply ih
          rcases best with _ | ⟨bj, bs⟩
          · rfl
          · simp only
            split
            · rfl
            · rfl
      · rw [dif_neg hj]
        exact h

theorem scanBest_start_isSome (aspects : List ℚ) (W gap T : ℚ) (i fuel : ℕ)
    (hi : i < aspects.length) (hfuel : 1 ≤ fuel)
    (h1 : ¬ (W / aspects.get ⟨i, hi⟩ < T * (1 / 2))) :
    (scanBest aspects W gap T i fuel i 0 none).isSome = true := by
  obtain ⟨f, rfl⟩ : ∃ f, fuel = f + 1 := ⟨fuel - 1, by omega⟩
  rw [scanBest, dif_pos hi]
  simp only [Nat.sub_self, Nat.zero_add, Nat.cast_one, sub_self, zero_mul, sub_zero, zero_add]
  rw [if_neg h1]
  exact scanBest_isSome aspects W gap T i f (i + 1) _ _ rfl

theorem forall₂_row_append {R : Box → ℚ → Prop} {xs ys : List Box} {l : List ℚ} {c : ℕ}
    (h1 : List.Forall₂ R xs (l.take c)) (h2 : List.Forall₂ R ys (l.drop c)) :
    List.Forall₂ R (xs ++ ys) l := by
  have h3 := List.rel_append h1 h2
  simp only [List.take_append_drop] at h3
  exact h3

theorem justifiedGo_forall₂ (aspects : List ℚ) (W gap T : ℚ) (behavior : String)
    (hbeh : behavior ≠ "hide") :
    ∀ (fuel i : ℕ) (top : ℚ), aspects.length - i ≤ fuel →
      List.Forall₂ (fun (b : Box) (a : ℚ) => b.width = b.height * a)
        (justifiedGo aspects W gap T behavior fuel i top).1 (aspects.drop i) := by
  intro fuel
  induction fuel with
  | zero =>
      intro i top hfuel
      rw [List.drop_eq_nil_of_le (by omega)]
      exact List.Forall₂.nil
  | succ f ih =>
      intro i top hfuel
      by_cases hi : i < aspects.length
      · rcases hsc : scanBest aspects W gap T i aspects.length i 0 none with _ | ⟨b, s⟩
        · rw [justifiedGo, dif_pos hi]
          simp only [hsc]
          rw [List.drop_eq_getElem_cons hi]
          refine List.Forall₂.cons ?_ ?_
          · rfl
          · exact ih (i + 1) _ (by omega)
        · obtain ⟨hib, hbn⟩ := scanBest_bounds aspects W gap T i aspects.length i 0 none
            le_rfl (fun b s h => Option.noConfusion h) b s hsc
          rw [justifiedGo, dif_pos hi]
          simp only [hsc]
          rw [if_neg (fun hc => hbeh hc.2)]
          have h2 : (aspects.drop i).drop (b - i + 1) = aspects.drop (b + 1) := by
            rw [List.drop_drop]
            congr 1
            omega
          refine forall₂_row_append (buildRow_forall₂ _ _ _ _ _) ?_
          rw [h2]
          exact ih (b + 1) _ (by omega)
      · rw [justifiedGo, dif_neg hi]
        rw [List.drop_eq_nil_of_le (by omega)]
        exact List.Forall₂.nil

theorem justifiedGo_hide_fill_rel (aspects : List ℚ) (W gap T : ℚ)
    (hscan : ∀ (k : ℕ) (hk : k < aspects.length), ¬ (W / aspects.get ⟨k, hk⟩ < T * (1 / 2))) :
    ∀ (fuel i : ℕ) (top : ℚ), aspects.length - i ≤ fuel → i < aspects.length →
      (justifiedGo aspects W gap T "hide" fuel i top).1.length <
        (justifiedGo aspects W gap T "fill" fuel i top).1.length ∧
      (justifiedGo aspects W gap T "hide" fuel i top).1 =
        (justifiedGo aspects W gap T "fill" fuel i top).1.take
          (justifiedGo aspects W gap T "hide" fuel i top).1.length ∧
      ∀ box ∈ (justifiedGo aspects W gap T "fill" fuel i top).1.drop
          (justifiedGo aspects W gap T "hide" fuel i top).1.length,
        (justifiedGo aspects W gap T "fill" fuel i top).2 =
          (justifiedGo aspects W gap T "hide" fuel i top).2 + box.height + gap := by
  intro fuel
  induction fuel with
  | zero => intro i top hfuel hi; omega
  | succ f ih =>
      intro i top hfuel hi
      obtain ⟨⟨b, s⟩, hsc⟩ := Option.isSome_iff_exists.mp
        (scanBest_start_isSome aspects W gap T i aspects.length hi (by omega) (hscan i hi))
      obtain ⟨hib, hbn⟩ := scanBest_bounds aspects W gap T i aspects.length i 0 none
        le_rfl (fun b s h => Option.noConfusion h) b s hsc
      have e1 : ((("fill" : String) = "hide")) = False := eq_false (by decide)
      have e2 : ((("fill" : String) = "left")) = False := eq_false (by decide)
      have e3 : ((("fill" : String) = "center")) = False := eq_false (by decide)
      have e4 : ((("fill" : String) = "right")) = False := eq_false (by decide)
      have e5 : ((("hide" : String) = "left")) = False := eq_false (by decide)
      have e6 : ((("hide" : String) = "center")) = False := eq_false (by decide)
      have e7 : ((("hide" : String) = "right")) = False := eq_false (by decide)
      by_cases hbl : b = aspects.length - 1
      · subst hbl
        have hn1 : aspects.length - 1 + 1 = aspects.length := by omega
        simp only [justifiedGo, dif_pos hi, hsc, beq_self_eq_true, eq_self_iff_true,
          true_and, and_true, and_self, e1, e2, e3, e4, e5, e6, e7,
          false_and, and_false, false_or, or_false, or_self, if_true, if_false,
          hn1, justifiedGo_at_end _ _ _ _ _ _ _ _ le_rfl,
          List.append_nil, List.length_nil, List.take_zero, List.drop_zero]
        refine ⟨?_, ?_⟩
        · rw [buildRow_length, List.length_take, List.length_drop]
          omega
        · intro box hbox
          have hh := buildRow_heights _ _ gap top _ box hbox
          rw [hh]
      · have hbeq : (b == aspects.length - 1) = false := by simp [hbl]
        have e0 : ((b == aspects.length - 1) = true) = False := by
          rw [hbeq]
          exact eq_false Bool.false_ne_true
        simp only [justifiedGo, dif_pos hi, hsc, e0,
          e1, e2, e3, e4, e5, e6, e7,
          false_and, and_false, false_or, or_false, if_false]
        have hlt : b + 1 < aspects.length := by omega
        obtain ⟨ih1, ih2, ih3⟩ := ih (b + 1)
          (top + (W - (((b - i + 1 : ℕ) : ℚ) - 1) * gap) / ((aspects.drop i).take (b - i + 1)).sum + gap)
          (by omega) hlt
        refine ⟨?_, ?_, ?_⟩
        · simp only [List.length_append]
          exact Nat.add_lt_add_left ih1 _
        · simp only [List.length_append, List.take_append_eq_append_take]
          rw [List.take_of_length_le (Nat.le_add_right _ _), Nat.add_sub_cancel_left, ← ih2]
        · intro box hbox
          simp only [List.length_append, List.drop_append_eq_append_drop] at hbox
          rw [List.drop_eq_nil_of_le (Nat.le_add_right _ _), Nat.add_sub_cancel_left] at hbox
          rw [List.nil_append] at hbox
          exact ih3 box hbox

theorem masonry_foldl_forall₂ (colW gap : ℚ) :
    ∀ (rest : List ℚ) (acc : List ℚ × List Box) (done : List ℚ),
      (∀ a ∈ rest, a ≠ 0) →
      List.Forall₂ (fun (b : Box) (a : ℚ) => b.width = b.height * a) acc.2 done →
      List.Forall₂ (fun (b : Box) (a : ℚ) => b.width = b.height * a)
        (List.foldl (masonryStep colW gap) acc rest).2 (done ++ rest) := by
  intro rest
  induction rest with
  | nil =>
      intro acc done hz hacc
      simpa using hacc
  | cons a rest ih =>
      intro acc done hz hacc
      rw [List.foldl_cons]
      have hstep : List.Forall₂ (fun (b : Box) (a : ℚ) => b.width = b.height * a)
          (masonryStep colW gap acc a).2 (done ++ [a]) := by
        simp only [masonryStep]
        refine List.rel_append hacc (List.Forall₂.cons ?_ List.Forall₂.nil)
        exact (div_mul_cancel₀ colW (hz a (List.mem_cons_self a rest))).symm
      have hrec := ih (masonryStep colW gap acc a) (done ++ [a])
        (fun x hx => hz x (List.mem_cons_of_mem a hx)) hstep
      simpa [List.append_assoc] using hrec

/-- C2: for a non-empty item list with positive aspect values, a valid
configuration, and `lastRowBehavior ≠ 'hide'`, each engine emits exactly
one box per input item, in input order: the box list has the length of the
item list, for justified and masonry the k-th box satisfies
`width = height · aspect[k]` (pairing boxes with items positionally), and
for grid the k-th box is the cell at column `k mod colCount`, row
`k div colCount`. -/
theorem coverage_all_engines (aspects : List ℚ) (W : ℚ) (opts : Options)
    (_hne : aspects ≠ []) (hpos : ∀ a ∈ aspects, 0 < a)
    (hbeh : opts.lastRowBehavior ≠ "hide") (_hcols : columnsOk opts.columns = true) :
    ((computeJustifiedLayout aspects W opts).boxes.length = aspects.length ∧
      List.Forall₂ (fun (b : Box) (a : ℚ) => b.width = b.height * a)
        (computeJustifiedLayout aspects W opts).boxes aspects) ∧
    ((computeMasonryLayout aspects W opts).boxes.length = aspects.length ∧
      List.Forall₂ (fun (b : Box) (a : ℚ) => b.width = b.height * a)
        (computeMasonryLayout aspects W opts).boxes aspects) ∧
    ((computeGridLayout aspects W opts).boxes.length = aspects.length ∧
      ∀ (k : ℕ) (hk : k < (computeGridLayout aspects W opts).boxes.length),
        (computeGridLayout aspects W opts).boxes.get ⟨k, hk⟩ =
          { left := ((k % (resolveColumns W opts).1 : ℕ) : ℚ) *
              ((resolveColumns W opts).2 + opts.gap),
            top := ((k / (resolveColumns W opts).1 : ℕ) : ℚ) *
              ((resolveColumns W opts).2 + opts.gap),
            width := (resolveColumns W opts).2,
            height := (resolveColumns W opts).2 }) := by
  have hjust : List.Forall₂ (fun (b : Box) (a : ℚ) => b.width = b.height * a)
      (computeJustifiedLayout aspects W opts).boxes aspects := by
    have hj := justifiedGo_forall₂ aspects W opts.gap opts.targetRowHeight
      opts.lastRowBehavior hbeh aspects.length 0 0 (by omega)
    simpa [computeJustifiedLayout] using hj
  have hmas : List.Forall₂ (fun (b : Box) (a : ℚ) => b.width = b.height * a)
      (computeMasonryLayout aspects W opts).boxes aspects := by
    have hm := masonry_foldl_forall₂ (resolveColumns W opts).2 opts.gap aspects
      (List.replicate (resolveColumns W opts).1 0, [])
      [] (fun a ha => ne_of_gt (hpos a ha)) List.Forall₂.nil
    simpa [computeMasonryLayout] using hm
  refine ⟨⟨hjust.length_eq.trans rfl, hjust⟩, ⟨hmas.length_eq.trans rfl, hmas⟩, ?_, ?_⟩
  · simp [computeGridLayout]
  · intro k hk
    simp only [computeGridLayout, List.get_eq_getElem, List.getElem_map, List.getElem_range]

/-- C2 witness: the coverage theorem applied to one unit-aspect item with
the default options. -/
theorem coverage_all_engines_witness :
    (([1] : List ℚ) ≠ [] ∧ (∀ a ∈ ([1] : List ℚ), 0 < a) ∧
      defaultOptions.lastRowBehavior ≠ "hide" ∧ columnsOk defaultOptions.columns = true) ∧
    (computeJustifiedLayout [1] 900 defaultOptions).boxes.length = ([1] : List ℚ).length :=
  ⟨⟨by decide, by decide, by decide, by decide⟩,
    (coverage_all_engines [1] 900 defaultOptions (by decide) (by decide)
      (by decide) (by decide)).1.1⟩

/-- C10: with `lastRowBehavior = 'hide'` (and inputs on which the candidate
scan always finds a break), the engine produces the same boxes as with
`'fill'` for every row but the last, drops the whole final row (the box
list is a strict prefix, so the trailing items get no box and no further
rows are produced), and the `'fill'` container height exceeds the
`'hide'` one by exactly the dropped row's height plus the gap, i.e. the
`'hide'` container height excludes the dropped row. -/
theorem justified_hide_drops_last_row (aspects : List ℚ) (W : ℚ) (opts : Options)
    (hne : aspects ≠ [])
    (hscan : ∀ (k : ℕ) (hk : k < aspects.length),
      ¬ (W / aspects.get ⟨k, hk⟩ < opts.targetRowHeight * (1 / 2))) :
    (computeJustifiedLayout aspects W { opts with lastRowBehavior := "fill" }).boxes.length =
      aspects.length ∧
    (computeJustifiedLayout aspects W { opts with lastRowBehavior := "hide" }).boxes.length <
      aspects.length ∧
    (computeJustifiedLayout aspects W { opts with lastRowBehavior := "hide" }).boxes =
      (computeJustifiedLayout aspects W { opts with lastRowBehavior := "fill" }).boxes.take
        (computeJustifiedLayout aspects W { opts with lastRowBehavior := "hide" }).boxes.length ∧
    ∀ box ∈ (computeJustifiedLayout aspects W { opts with lastRowBehavior := "fill" }).boxes.drop
        (computeJustifiedLayout aspects W { opts with lastRowBehavior := "hide" }).boxes.length,
      (computeJustifiedLayout aspects W { opts with lastRowBehavior := "fill" }).containerHeight =
        (computeJustifiedLayout aspects W
            { opts with lastRowBehavior := "hide" }).containerHeight + box.height + opts.gap := by
  simp only [computeJustifiedLayout]
  have hlen : 0 < aspects.length := List.length_pos.mpr hne
  obtain ⟨h1, h2, h3⟩ := justifiedGo_hide_fill_rel aspects W opts.gap opts.targetRowHeight hscan
    aspects.length 0 0 (by omega) hlen
  have hfill := justifiedGo_forall₂ aspects W opts.gap opts.targetRowHeight "fill"
    (by decide) aspects.length 0 0 (by omega)
  have hflen : (justifiedGo aspects W opts.gap opts.targetRowHeight "fill"
      aspects.length 0 0).1.length = aspects.length := by
    simpa using hfill.length_eq
  exact ⟨hflen, by omega, h2, h3⟩

/-- C10 witness: the hide-vs-fill theorem applied to the three-item
scenario of C1 (where the last row is the single trailing item). -/
theorem justified_hide_drops_last_row_witness :
    (([3/2, 1, 2] : List ℚ) ≠ [] ∧
      ∀ (k : ℕ) (hk : k < ([3/2, 1, 2] : List ℚ).length),
        ¬ ((900 : ℚ) / ([3/2, 1, 2] : List ℚ).get ⟨k, hk⟩ <
          defaultOptions.targetRowHeight * (1 / 2))) ∧
    (computeJustifiedLayout [3/2, 1, 2] 900
      { defaultOptions with lastRowBehavior := "hide" }).boxes.length < 3 :=
  ⟨⟨by decide, by decide⟩,
    (justified_hide_drops_last_row [3/2, 1, 2] 900 defaultOptions
      (by decide) (by decide)).2.1⟩

/-- C6 amended witness: the empty-input theorem applied to a two-column
configuration with gap 10 and width 620. -/
theorem empty_input_layouts_witness :
    columnsOk ({ defaultOptions with gap := 10, columns := Columns.fixed 2 } : Options).columns =
      true ∧
    (computeGridLayout ([] : List ℚ) 620
        { defaultOptions with gap := 10, columns := Columns.fixed 2 }).containerHeight =
      -({ defaultOptions with gap := 10, columns := Columns.fixed 2 } : Options).gap :=
  ⟨by decide,
    (empty_input_layouts 620 { defaultOptions with gap := 10, columns := Columns.fixed 2 }
      (by decide)).2.2.2.2.2⟩

/-- C7 amended witness: the normalization theorem applied to aspect `-2`,
width `800` and height `600`. -/
theorem addItems_normalization_witness :
    ((-2 : ℚ) ≠ 0 ∧ (800 : ℚ) ≠ 0 ∧ (600 : ℚ) ≠ 0) ∧
    normalizeAspect none (some 800) (some 600) = 800 / 600 :=
  ⟨⟨by decide, by decide, by decide⟩,
    (addItems_normalization (-2) 800 600 (by decide) (by decide) (by decide)).2.1⟩

/-- C8 witness: the visibility theorem applied to the concrete box and
scroll positions of the claim. -/
theorem visibility_spec_witness :
    (0 : ℚ) ≤ 50 ∧ visibleIndices [⟨0, 1000, 100, 200⟩] 900 500 0 50 = [0] :=
  ⟨by decide,
    (visibility_spec [⟨0, 1000, 100, 200⟩] 900 500 0 50 (by decide)).2.1⟩
